import Mathlib

/-!
# RepRapWebServer: a verification development

A shallow embedding of `src/RepRapWebServer.h` (DuetWiFiServer).  The header
defines the protocol constants, the `HTTPUpload` record, the state of the
`RepRapWebServer` class and two inline member functions, `setContentLength`
and `streamFile`.  The other member functions are only declared there; their
bodies live in a translation unit that is not part of the sources at hand.

Conventions of the embedding:

* `size_t` values are natural numbers; where the width matters (the two
  content-length sentinels) the cast is written out as a reduction modulo
  `2 ^ w`;
* Arduino `String`s are Lean `String`s, compared by content;
* member functions that the header only declares are parameters of the
  functions that call them (`Methods`), and every call is recorded in a log, so
  that the order of calls can be stated;
* where a statement needs the behaviour of a declared-only member function,
  that function is modelled from the specification and marked as such.
-/

set_option autoImplicit false

namespace DuetWiFiServer

/-! ## Constants and enumerations (lines 29-38) -/

/-- The `enum HTTPMethod` of line 29. -/
inductive HTTPMethod where
  | HTTP_ANY | HTTP_GET | HTTP_POST | HTTP_PUT | HTTP_PATCH | HTTP_DELETE | HTTP_OPTIONS
  deriving DecidableEq, Repr

/-- The `enum HTTPUploadStatus` of line 30. -/
inductive HTTPUploadStatus where
  | UPLOAD_FILE_START | UPLOAD_FILE_WRITE | UPLOAD_FILE_END | UPLOAD_FILE_ABORTED
  deriving DecidableEq, Repr

/-- The unit size of a file download, `#define HTTP_DOWNLOAD_UNIT_SIZE 1460`. -/
def HTTP_DOWNLOAD_UNIT_SIZE : Nat := 1460

/-- The length of the upload buffer, `#define HTTP_UPLOAD_BUFLEN 2048`. -/
def HTTP_UPLOAD_BUFLEN : Nat := 2048

/-- Milliseconds to wait for the client to send the request. -/
def HTTP_MAX_DATA_WAIT : Nat := 1000

/-- Milliseconds to wait for the client to close the connection. -/
def HTTP_MAX_CLOSE_WAIT : Nat := 2000

/-- The cast `(size_t) i` of a signed integer constant to an unsigned type of
`w` bits: the value modulo `2 ^ w`. -/
def size_t_cast (w : Nat) (i : Int) : Nat :=
  (i % (2 : Int) ^ w).toNat

/-- The sentinel `#define CONTENT_LENGTH_UNKNOWN ((size_t) -1)`. -/
def CONTENT_LENGTH_UNKNOWN (w : Nat) : Nat := size_t_cast w (-1)

/-- The sentinel `#define CONTENT_LENGTH_NOT_SET ((size_t) -2)`. -/
def CONTENT_LENGTH_NOT_SET (w : Nat) : Nat := size_t_cast w (-2)

/-! ## Records (lines 42-50 and 143-173) -/

/-- A `uint8_t`. -/
abbrev Byte := Fin 256

/-- The array type `uint8_t[n]`: exactly `n` bytes. -/
abbrev ByteBuffer (n : Nat) := { l : List Byte // l.length = n }

/-- The `HTTPUpload` record of lines 42-50. -/
structure HTTPUpload where
  status : HTTPUploadStatus
  filename : String
  name : String
  type : String
  /-- The file size. -/
  totalSize : Nat
  /-- The size of the data currently in `buf`. -/
  currentSize : Nat
  buf : ByteBuffer HTTP_UPLOAD_BUFLEN

/-- The number of bytes the buffer of an upload record holds. -/
def HTTPUpload.bufLength (u : HTTPUpload) : Nat := u.buf.val.length

/-- The `struct RequestArgument` of lines 143-146. -/
structure RequestArgument where
  key : String
  value : String
  deriving DecidableEq, Repr

/-- The types the class takes from the platform (the WiFi library, the request
handler classes and `std::function`); the header only names them. -/
structure Platform where
  WiFiServer : Type
  WiFiClient : Type
  RequestHandler : Type
  THandlerFunction : Type

/-- The data members of `class RepRapWebServer`, lines 148-173.  A pointer to an
array becomes a list. -/
structure RepRapWebServer (P : Platform) where
  _server : P.WiFiServer
  _currentClient : P.WiFiClient
  _currentMethod : HTTPMethod
  _currentUri : String
  _currentFullUri : String
  _currentHandler : Option P.RequestHandler
  _firstHandler : Option P.RequestHandler
  _lastHandler : Option P.RequestHandler
  _notFoundHandler : P.THandlerFunction
  _fileUploadHandler : P.THandlerFunction
  _currentArgCount : Int
  _currentArgs : List RequestArgument
  _currentUpload : HTTPUpload
  _headerKeysCount : Int
  _currentHeaders : List RequestArgument
  _contentLength : Nat
  _responseHeaders : String
  _hostHeader : String
  _postLength : Nat
  _servingPrinter : Bool

/-! ## Inline member functions (lines 108 and 114) -/

namespace RepRapWebServer

/-- Line 108: `void setContentLength(size_t contentLength) { _contentLength = contentLength; }`. -/
def setContentLength {P : Platform} (contentLength : Nat) (s : RepRapWebServer P) :
    RepRapWebServer P :=
  { s with _contentLength := contentLength }

/-- Line 114: `uint32_t getPostLength() const { return _postLength; }`. -/
def getPostLength {P : Platform} (s : RepRapWebServer P) : Nat := s._postLength

end RepRapWebServer

/-! ## `streamFile` (lines 116-125)

The template parameter `T` is used through `size()` and `name()` and handed on
to `_currentClient.write`.  `sendHeader`, `send` and the client's `write` have no
body in the header, so `streamFile` takes them as parameters and logs each call
together with the server state it is made on. -/

/-- A file as `streamFile` sees it: `name()`, `size()` and the bytes reading it
yields. -/
structure File where
  name : String
  size : Nat
  data : List Byte
  deriving DecidableEq

/-- Arduino `String::endsWith`: the string ends with the given suffix. -/
def endsWith (s suffix : String) : Bool :=
  suffix.data.isSuffixOf s.data

/-- The calls `streamFile` makes, with their arguments. -/
inductive Call where
  | setContentLength (contentLength : Nat)
  | sendHeader (name value : String) (first : Bool)
  | send (code : Int) (content_type content : String)
  | clientWrite (file : File) (unitSize : Nat)
  deriving DecidableEq

/-- Whether a call is a `sendHeader`. -/
def Call.isSendHeader : Call → Bool
  | .sendHeader _ _ _ => true
  | _ => false

/-- Whether a call is the client's `write`. -/
def Call.isClientWrite : Call → Bool
  | .clientWrite _ _ => true
  | _ => false

/-- Whether a call is a `send`. -/
def Call.isSend : Call → Bool
  | .send _ _ _ => true
  | _ => false

/-- The member functions `streamFile` calls whose bodies are not in the header:
`sendHeader` (line 109), `send(int, const String&, const String&)` (line 106) and
`WiFiClient::write(T&, size_t)`, which reports the number of bytes written. -/
structure Methods (P : Platform) where
  sendHeader : String → String → Bool → RepRapWebServer P → RepRapWebServer P
  send : Int → String → String → RepRapWebServer P → RepRapWebServer P
  clientWrite : File → Nat → P.WiFiClient → Nat × P.WiFiClient

/-- One logged call: the call and the server state it was made on. -/
structure Event (P : Platform) where
  call : Call
  before : RepRapWebServer P

/-- A server together with the log of the calls made on it so far. -/
structure Run (P : Platform) where
  server : RepRapWebServer P
  log : List (Event P)

namespace Run

variable {P : Platform}

/-- A run that starts on `s` with an empty log. -/
def start (s : RepRapWebServer P) : Run P := ⟨s, []⟩

/-- Log a call made on the current server state. -/
def record (c : Call) (r : Run P) : List (Event P) :=
  r.log ++ [⟨c, r.server⟩]

/-- A logged `setContentLength(contentLength)`. -/
def setContentLength (contentLength : Nat) (r : Run P) : Run P :=
  { server := r.server.setContentLength contentLength
    log := r.record (.setContentLength contentLength) }

/-- A logged `sendHeader(name, value, first)`. -/
def sendHeader (m : Methods P) (name value : String) (first : Bool) (r : Run P) : Run P :=
  { server := m.sendHeader name value first r.server
    log := r.record (.sendHeader name value first) }

/-- A logged `send(code, content_type, content)`. -/
def send (m : Methods P) (code : Int) (content_type content : String) (r : Run P) : Run P :=
  { server := m.send code content_type content r.server
    log := r.record (.send code content_type content) }

/-- A logged `_currentClient.write(file, unitSize)`, with the count it reports. -/
def clientWrite (m : Methods P) (file : File) (unitSize : Nat) (r : Run P) : Nat × Run P :=
  let w := m.clientWrite file unitSize r.server._currentClient
  (w.1, { server := { r.server with _currentClient := w.2 }
          log := r.record (.clientWrite file unitSize) })

/-- Lines 116-125:
```
template<typename T> size_t streamFile(T &file, const String& contentType){
  setContentLength(file.size());
  if (String(file.name()).endsWith(".gz") &&
      contentType != "application/x-gzip" &&
      contentType != "application/octet-stream"){
    sendHeader("Content-Encoding", "gzip");
  }
  send(200, contentType, "");
  return _currentClient.write(file, HTTP_DOWNLOAD_UNIT_SIZE);
}
```
The declaration of line 109 gives `first` the default `false`. -/
def streamFile (m : Methods P) (file : File) (contentType : String) (r : Run P) :
    Nat × Run P :=
  let r := r.setContentLength file.size
  let r :=
    if endsWith file.name ".gz" = true ∧
        contentType ≠ "application/x-gzip" ∧
        contentType ≠ "application/octet-stream" then
      r.sendHeader m "Content-Encoding" "gzip" false
    else r
  let r := r.send m 200 contentType ""
  r.clientWrite m file HTTP_DOWNLOAD_UNIT_SIZE

end Run

/-- The calls `streamFile` makes, in order, when started on server state `s`. -/
def streamFileCalls {P : Platform} (m : Methods P) (file : File) (contentType : String)
    (s : RepRapWebServer P) : List Call :=
  (Run.streamFile m file contentType (Run.start s)).2.log.map Event.call

/-- The value `streamFile` returns when started on server state `s`. -/
def streamFileResult {P : Platform} (m : Methods P) (file : File) (contentType : String)
    (s : RepRapWebServer P) : Nat :=
  (Run.streamFile m file contentType (Run.start s)).1

/-- The logged calls of `streamFile`, each with the state it was made on. -/
def streamFileLog {P : Platform} (m : Methods P) (file : File) (contentType : String)
    (s : RepRapWebServer P) : List (Event P) :=
  (Run.streamFile m file contentType (Run.start s)).2.log

/-- The server state `streamFile` leaves behind when started on server state `s`. -/
def streamFileServer {P : Platform} (m : Methods P) (file : File) (contentType : String)
    (s : RepRapWebServer P) : RepRapWebServer P :=
  (Run.streamFile m file contentType (Run.start s)).2.server

/-- The condition of lines 118-120 under which `streamFile` announces gzip. -/
def gzipCondition (file : File) (contentType : String) : Prop :=
  endsWith file.name ".gz" = true ∧
    contentType ≠ "application/x-gzip" ∧
    contentType ≠ "application/octet-stream"

instance (file : File) (contentType : String) : Decidable (gzipCondition file contentType) := by
  unfold gzipCondition; infer_instance

/-- The server state `streamFile` calls `send` on. -/
def stateAtSend {P : Platform} (m : Methods P) (file : File) (contentType : String)
    (s : RepRapWebServer P) : RepRapWebServer P :=
  if gzipCondition file contentType then
    m.sendHeader "Content-Encoding" "gzip" false (s.setContentLength file.size)
  else s.setContentLength file.size

/-! ## The response writer, modelled from the specification

`sendHeader`, `send` and `sendContent` are declared on lines 102-111 and defined
elsewhere.  The definitions of this section follow sections 3 and 4.6 of the
specification. -/

/-- Modelled from the spec: the connection the response is written to, which is
missing from the header (`WiFiClient`), together with the flag of the response
accumulator (section 3) "marking whether headers have already been flushed".  The
class declaration has no member for that flag, so the model keeps it with the
connection.  The transmitted bytes are kept apart as head and body. -/
structure SpecClient where
  headersFlushed : Bool
  headerBytes : String
  bodyBytes : List Byte
  bodyEnded : Bool
  deriving DecidableEq

/-- The platform of the modelled response writer. -/
def specPlatform : Platform :=
  { WiFiServer := Unit, WiFiClient := SpecClient, RequestHandler := Unit,
    THandlerFunction := Unit }

/-- The server state of the modelled response writer. -/
abbrev SpecServer := RepRapWebServer specPlatform

/-- Modelled from the spec: the parts of the response head whose text the
specification leaves open, missing with `_prepareHeader` and
`_responseCodeToString`: the width of `size_t`, the status line (with the
content type line) of a `send`, the one of a response begun by `sendContent`,
the line declaring a known content length, and the "unknown-length marker". -/
structure HeadFormat where
  sizeBits : Nat
  statusLines : Int → String → String
  defaultStatusLines : String
  lengthLine : Nat → String
  unknownLengthMarker : String

/-- One header line, `name: value` and a line end. -/
def headerLine (name value : String) : String :=
  name ++ ": " ++ value ++ "\r\n"

/-- The bytes of a string, one per character. -/
def bytesOf (s : String) : List Byte :=
  s.data.map fun c => Fin.ofNat c.toNat

namespace Spec

/-- Modelled from the spec: `sendHeader` (line 109), whose body is missing.
Section 4.6: "`sendHeader` appends a header line to the pending header buffer";
section 3: "further `sendHeader` calls after body start are rejected/no-ops".
With `first` the line is put in front of the pending ones. -/
def sendHeader (name value : String) (first : Bool) (s : SpecServer) : SpecServer :=
  if s._currentClient.headersFlushed then s
  else if first then { s with _responseHeaders := headerLine name value ++ s._responseHeaders }
  else { s with _responseHeaders := s._responseHeaders ++ headerLine name value }

/-- Modelled from the spec: the content length part of the head, missing with
`_prepareHeader`.  Section 4.6: "required `Content-Length` (or an unknown-length
marker substituting a streaming strategy)".  While no length is set, the length
of the first chunk is declared. -/
def lengthPart (fmt : HeadFormat) (contentLength chunkLength : Nat) : String :=
  if contentLength = CONTENT_LENGTH_UNKNOWN fmt.sizeBits then fmt.unknownLengthMarker
  else if contentLength = CONTENT_LENGTH_NOT_SET fmt.sizeBits then fmt.lengthLine chunkLength
  else fmt.lengthLine contentLength

/-- Modelled from the spec: the flush of the head, missing with `_prepareHeader`.
Section 4.6: "The first `send`/`sendContent` call finalizes and flushes the
status line, all pending headers, required `Content-Length` [...], and a blank
line"; section 3: "header flushing happens exactly once". -/
def flushHead (fmt : HeadFormat) (status : String) (chunkLength : Nat) (s : SpecServer) :
    SpecServer :=
  if s._currentClient.headersFlushed then s
  else
    { s with
      _currentClient :=
        { s._currentClient with
          headersFlushed := true
          headerBytes := s._currentClient.headerBytes ++ status ++ s._responseHeaders ++
            lengthPart fmt s._contentLength chunkLength ++ "\r\n" }
      _responseHeaders := "" }

/-- Modelled from the spec: the write of body bytes to the client, missing with
`sendContent`.  Section 4.6: "Subsequent `sendContent` calls append more body
bytes; a caller-supplied last flag signals end-of-body". -/
def writeBody (chunk : List Byte) (last : Bool) (s : SpecServer) : SpecServer :=
  { s with
    _currentClient :=
      { s._currentClient with
        bodyBytes := s._currentClient.bodyBytes ++ chunk
        bodyEnded := s._currentClient.bodyEnded || last } }

/-- Modelled from the spec: `send(code, content_type, content)` (line 106), whose
body is missing.  Section 4.6: the first call flushes the head, "then writes the
first body chunk". -/
def send (fmt : HeadFormat) (code : Int) (content_type content : String) (s : SpecServer) :
    SpecServer :=
  writeBody (bytesOf content) false
    (flushHead fmt (fmt.statusLines code content_type) content.length s)

/-- Modelled from the spec: `sendContent(content, last)` (line 111), whose body is
missing. -/
def sendContent (fmt : HeadFormat) (content : String) (last : Bool) (s : SpecServer) :
    SpecServer :=
  writeBody (bytesOf content) last (flushHead fmt fmt.defaultStatusLines content.length s)

/-- Modelled from the spec: `WiFiClient::write(file, unitSize)`, which is missing.
Section 4.6: it "writes the file in fixed 1460-byte chunks"; all bytes of the
file reach the client and their number is reported. -/
def clientWrite (file : File) (_unitSize : Nat) (c : SpecClient) : Nat × SpecClient :=
  (file.data.length, { c with bodyBytes := c.bodyBytes ++ file.data })

/-- The modelled member functions, in the form `streamFile` takes them. -/
def methods (fmt : HeadFormat) : Methods specPlatform :=
  { sendHeader := sendHeader, send := send fmt, clientWrite := clientWrite }

/-- The member functions `streamFile` calls, with `sendHeader` as modelled from
the specification and `send` and the client's `write` left open. -/
def methodsWith (send : Int → String → String → SpecServer → SpecServer)
    (clientWrite : File → Nat → SpecClient → Nat × SpecClient) : Methods specPlatform :=
  { sendHeader := sendHeader, send := send, clientWrite := clientWrite }

/-- The calls a handler makes on the response writer. -/
inductive ResponseCall where
  | sendHeader (name value : String) (first : Bool)
  | send (code : Int) (content_type content : String)
  | sendContent (content : String) (last : Bool)
  deriving DecidableEq

/-- Whether a call writes to the client, that is, is a `send` or a `sendContent`. -/
def ResponseCall.writes : ResponseCall → Bool
  | .sendHeader _ _ _ => false
  | _ => true

/-- The effect of one call on the server. -/
def step (fmt : HeadFormat) (s : SpecServer) : ResponseCall → SpecServer
  | .sendHeader name value first => sendHeader name value first s
  | .send code content_type content => send fmt code content_type content s
  | .sendContent content last => sendContent fmt content last s

/-- The effect of a sequence of calls, made in order. -/
def run (fmt : HeadFormat) (s : SpecServer) (calls : List ResponseCall) : SpecServer :=
  calls.foldl (step fmt) s

/-- The header bytes transmitted to the client so far. -/
def transmittedHeaders (s : SpecServer) : String :=
  s._currentClient.headerBytes

end Spec

/-! ## URL decoding, modelled from the specification

`urlDecode` is declared on line 141 and defined elsewhere.  Section 4.2 of the
specification: "the query string is decoded (percent-escapes to bytes, `+` to
space)". -/

/-- Modelled from the spec: the value of a hexadecimal digit of a percent-escape,
if the character is one; part of the missing body of `urlDecode`. -/
def hexValue (c : Char) : Option Nat :=
  let code := c.toNat
  if code ∈ Finset.Icc 48 57 then some (code - 48)         -- 0 .. 9
  else if code ∈ Finset.Icc 65 70 then some (code - 55)    -- A .. F
  else if code ∈ Finset.Icc 97 102 then some (code - 87)   -- a .. f
  else none

/-- Modelled from the spec: what a character that is not part of a percent-escape
decodes to, `+` to a space, any other character to itself; part of the missing
body of `urlDecode`. -/
def plusToSpace (c : Char) : Char :=
  if c = '+' then ' ' else c

/-- Modelled from the spec: the byte a percent sign stands for together with the
characters after it, defined when these start with two hexadecimal digits; part
of the missing body of `urlDecode`. -/
def escapeValue : List Char → Option Char
  | h :: l :: _ =>
    match hexValue h, hexValue l with
    | some a, some b => some (Char.ofNat (16 * a + b))
    | _, _ => none
  | _ => none

/-- Modelled from the spec: the decoding loop of `urlDecode`, whose body is
missing.  A percent sign followed by two hexadecimal digits is a
percent-escape and decodes to the byte they denote; `+` decodes to a space;
every other character, a percent sign that starts no escape included, is kept.
The first argument counts the characters still to skip, those of an escape
already decoded. -/
def urlDecodeFrom : Nat → List Char → List Char
  | _, [] => []
  | skip + 1, _ :: tail => urlDecodeFrom skip tail
  | 0, c :: tail =>
    if c = '%' then
      match escapeValue tail with
      | some b => b :: urlDecodeFrom 2 tail
      | none => c :: urlDecodeFrom 0 tail
    else plusToSpace c :: urlDecodeFrom 0 tail

/-- Modelled from the spec: `String urlDecode(const String& text)` (line 141),
whose body is missing. -/
def urlDecode (text : String) : String :=
  ⟨urlDecodeFrom 0 text.data⟩

/-- The hexadecimal digit, in upper case, of a value below 16. -/
def hexDigit (n : Nat) : Char :=
  Char.ofNat (if n < 10 then 48 + n else 55 + n)

/-- The characters percent-encoding leaves as they are: letters, digits and
`-`, `.`, `_`, `~`. -/
def unreserved (c : Char) : Bool :=
  c.isAlphanum || c = '-' || c = '.' || c = '_' || c = '~'

/-- The percent-encoding of one character: itself if unreserved, else a percent
sign and the two hexadecimal digits of its code. -/
def percentEncodeChar (c : Char) : List Char :=
  if unreserved c then [c]
  else ['%', hexDigit (c.toNat / 16 % 16), hexDigit (c.toNat % 16)]

/-- The percent-encoding of a string, the `encode` of section 8 of the
specification; the sources have no encoder, this one follows the usual
definition. -/
def percentEncode (s : String) : String :=
  ⟨s.data.flatMap percentEncodeChar⟩

/-- The reversible subset of characters: those that fit in one byte, which a
percent-escape of two hexadecimal digits can denote. -/
def reversible (c : Char) : Prop :=
  c.toNat < 256

instance (c : Char) : Decidable (reversible c) := by
  unfold reversible; infer_instance

/-! ### Concrete values used to instantiate the statements -/

/-- An upload record at rest: no file, an all-zero buffer. -/
def idleUpload : HTTPUpload :=
  { status := .UPLOAD_FILE_END, filename := "", name := "", type := "",
    totalSize := 0, currentSize := 0,
    buf := ⟨List.replicate HTTP_UPLOAD_BUFLEN 0, List.length_replicate _ _⟩ }

/-- A connection on which nothing has been written. -/
def freshClient : SpecClient :=
  { headersFlushed := false, headerBytes := "", bodyBytes := [], bodyEnded := false }

/-- A server at the start of a response to `GET /`, with the given content length. -/
def freshServer (contentLength : Nat) : SpecServer :=
  { _server := (), _currentClient := freshClient, _currentMethod := .HTTP_GET,
    _currentUri := "/", _currentFullUri := "/", _currentHandler := none,
    _firstHandler := none, _lastHandler := none, _notFoundHandler := (),
    _fileUploadHandler := (), _currentArgCount := 0, _currentArgs := [],
    _currentUpload := idleUpload, _headerKeysCount := 0, _currentHeaders := [],
    _contentLength := contentLength, _responseHeaders := "", _hostHeader := "",
    _postLength := 0, _servingPrinter := false }

/-- The file of the static-route scenario: `/web/app.js.gz`, three bytes long. -/
def appJsGz : File :=
  { name := "/web/app.js.gz", size := 3, data := [31, 139, 8] }

/-- A head format for a 32-bit `size_t`. -/
def plainFormat : HeadFormat :=
  { sizeBits := 32
    statusLines := fun code content_type =>
      "HTTP/1.1 " ++ toString code ++ "\r\n" ++ headerLine "Content-Type" content_type
    defaultStatusLines := "HTTP/1.1 200\r\n"
    lengthLine := fun n => headerLine "Content-Length" (toString n)
    unknownLengthMarker := headerLine "Connection" "close" }

/-! ## Theorems -/

/-! ### Constants and records -/

/-- C8: the wait for the request is `HTTP_MAX_DATA_WAIT = 1000` ms and the wait for
the client to close is `HTTP_MAX_CLOSE_WAIT = 2000` ms; both are positive and the
first is strictly smaller than the second. -/
theorem wait_constants :
    HTTP_MAX_DATA_WAIT = 1000 ∧ HTTP_MAX_CLOSE_WAIT = 2000 ∧
      0 < HTTP_MAX_DATA_WAIT ∧ 0 < HTTP_MAX_CLOSE_WAIT ∧
      HTTP_MAX_DATA_WAIT < HTTP_MAX_CLOSE_WAIT := by
  simp [HTTP_MAX_DATA_WAIT, HTTP_MAX_CLOSE_WAIT]

/-- For `0 < k ≤ m`, `-k` reduced modulo `m` is `m - k`. -/
theorem neg_emod_toNat (m : Nat) (k : Nat) (hk : k ≤ m) (hk0 : 0 < k) :
    ((-(k : Int)) % (m : Int)).toNat = m - k := by
  have h1 : (-(k : Int)) % (m : Int) = ((m - k : Nat) : Int) := by
    rw [← Int.add_mul_emod_self (a := -(k : Int)) (b := 1) (c := (m : Int))]
    rw [Int.emod_eq_of_lt] <;> omega
  rw [h1, Int.toNat_ofNat]

/-- The cast of `-k` to `size_t`, for `0 < k ≤ 2 ^ w`. -/
theorem size_t_cast_neg (w k : Nat) (hk : k ≤ 2 ^ w) (hk0 : 0 < k) :
    size_t_cast w (-(k : Int)) = 2 ^ w - k := by
  unfold size_t_cast
  have := neg_emod_toNat (2 ^ w) k hk hk0
  simpa using this

/-- A width of at least one bit gives at least two values. -/
theorem two_le_two_pow (w : Nat) (hw : 0 < w) : 2 ≤ 2 ^ w := by
  calc 2 = 2 ^ 1 := by norm_num
    _ ≤ 2 ^ w := Nat.pow_le_pow_right (by norm_num) hw

/-- C9: for a `size_t` of `w ≥ 1` bits, `CONTENT_LENGTH_UNKNOWN` is `2 ^ w - 1` and
`CONTENT_LENGTH_NOT_SET` is `2 ^ w - 2`; the two differ, and every length below
`2 ^ w - 2` differs from both. -/
theorem content_length_sentinels (w : Nat) (hw : 0 < w) :
    CONTENT_LENGTH_UNKNOWN w = 2 ^ w - 1 ∧
      CONTENT_LENGTH_NOT_SET w = 2 ^ w - 2 ∧
      CONTENT_LENGTH_UNKNOWN w ≠ CONTENT_LENGTH_NOT_SET w ∧
      ∀ n : Nat, n < 2 ^ w - 2 →
        n ≠ CONTENT_LENGTH_UNKNOWN w ∧ n ≠ CONTENT_LENGTH_NOT_SET w := by
  have h2 := two_le_two_pow w hw
  have hu : CONTENT_LENGTH_UNKNOWN w = 2 ^ w - 1 :=
    size_t_cast_neg w 1 (by omega) (by norm_num)
  have hn : CONTENT_LENGTH_NOT_SET w = 2 ^ w - 2 :=
    size_t_cast_neg w 2 h2 (by norm_num)
  refine ⟨hu, hn, ?_, ?_⟩
  · rw [hu, hn]; omega
  · intro n hlt
    rw [hu, hn]; omega

/-- The sentinels of a 32-bit `size_t`, as on the ESP8266. -/
theorem content_length_sentinels_32 :
    CONTENT_LENGTH_UNKNOWN 32 = 2 ^ 32 - 1 ∧
      CONTENT_LENGTH_NOT_SET 32 = 2 ^ 32 - 2 ∧
      CONTENT_LENGTH_UNKNOWN 32 ≠ CONTENT_LENGTH_NOT_SET 32 ∧
      ∀ n : Nat, n < 2 ^ 32 - 2 →
        n ≠ CONTENT_LENGTH_UNKNOWN 32 ∧ n ≠ CONTENT_LENGTH_NOT_SET 32 :=
  content_length_sentinels 32 (by decide)

/-- C7: the buffer of every upload record has exactly `HTTP_UPLOAD_BUFLEN = 2048`
bytes, so it never holds more than 2048, whatever `totalSize` is: for every `n`
the record with `totalSize` set to `n` has the same buffer, and a record with
that `totalSize` exists. -/
theorem upload_buffer_capacity (u : HTTPUpload) (n : Nat) :
    HTTP_UPLOAD_BUFLEN = 2048 ∧
      u.bufLength = HTTP_UPLOAD_BUFLEN ∧
      u.bufLength ≤ 2048 ∧
      ({ u with totalSize := n }).bufLength = u.bufLength ∧
      ∃ v : HTTPUpload, v.totalSize = n ∧ v.bufLength ≤ 2048 := by
  have hu : u.bufLength = HTTP_UPLOAD_BUFLEN := u.buf.property
  have hc : HTTP_UPLOAD_BUFLEN = 2048 := rfl
  refine ⟨hc, hu, ?_, rfl, ⟨{ u with totalSize := n }, rfl, ?_⟩⟩
  · rw [hu, hc]
  · show u.bufLength ≤ 2048
    rw [hu, hc]

/-! ### `setContentLength` -/

/-- C10: `setContentLength n` sets the content length to `n` and changes no other
member; a second call overrides the first, and repeating a call changes
nothing. -/
theorem setContentLength_frame {P : Platform} (s : RepRapWebServer P) (n a b : Nat) :
    (s.setContentLength n)._contentLength = n ∧
      ((s.setContentLength n)._server = s._server ∧
        (s.setContentLength n)._currentClient = s._currentClient ∧
        (s.setContentLength n)._currentMethod = s._currentMethod ∧
        (s.setContentLength n)._currentUri = s._currentUri ∧
        (s.setContentLength n)._currentFullUri = s._currentFullUri ∧
        (s.setContentLength n)._currentHandler = s._currentHandler ∧
        (s.setContentLength n)._firstHandler = s._firstHandler ∧
        (s.setContentLength n)._lastHandler = s._lastHandler ∧
        (s.setContentLength n)._notFoundHandler = s._notFoundHandler ∧
        (s.setContentLength n)._fileUploadHandler = s._fileUploadHandler ∧
        (s.setContentLength n)._currentArgCount = s._currentArgCount ∧
        (s.setContentLength n)._currentArgs = s._currentArgs ∧
        (s.setContentLength n)._currentUpload = s._currentUpload ∧
        (s.setContentLength n)._headerKeysCount = s._headerKeysCount ∧
        (s.setContentLength n)._currentHeaders = s._currentHeaders ∧
        (s.setContentLength n)._responseHeaders = s._responseHeaders ∧
        (s.setContentLength n)._hostHeader = s._hostHeader ∧
        (s.setContentLength n)._postLength = s._postLength ∧
        (s.setContentLength n)._servingPrinter = s._servingPrinter) ∧
      (s.setContentLength a).setContentLength b = s.setContentLength b ∧
      (s.setContentLength n).setContentLength n = s.setContentLength n := by
  refine ⟨rfl, ?_, rfl, rfl⟩
  simp [RepRapWebServer.setContentLength]

/-! ### `streamFile` -/

/-- The suffix test is right: `endsWith s suffix` holds exactly when `s` is some
string followed by `suffix`. -/
theorem endsWith_iff (s suffix : String) :
    endsWith s suffix = true ↔ ∃ stem : String, s = stem ++ suffix := by
  unfold endsWith
  rw [List.isSuffixOf_iff_suffix]
  constructor
  · rintro ⟨t, ht⟩
    exact ⟨⟨t⟩, String.ext (by simpa using ht.symm)⟩
  · rintro ⟨stem, rfl⟩
    exact ⟨stem.data, by simp⟩

/-- The log of `streamFile` when the gzip condition holds: four calls. -/
theorem streamFileLog_gzip {P : Platform} (m : Methods P) (file : File) (contentType : String)
    (s : RepRapWebServer P) (h : gzipCondition file contentType) :
    streamFileLog m file contentType s =
      [⟨.setContentLength file.size, s⟩,
        ⟨.sendHeader "Content-Encoding" "gzip" false, s.setContentLength file.size⟩,
        ⟨.send 200 contentType "", stateAtSend m file contentType s⟩,
        ⟨.clientWrite file HTTP_DOWNLOAD_UNIT_SIZE,
          m.send 200 contentType "" (stateAtSend m file contentType s)⟩] := by
  have h2 := h
  unfold gzipCondition at h2
  simp [streamFileLog, Run.streamFile, Run.start, Run.setContentLength, Run.sendHeader,
    Run.send, Run.clientWrite, Run.record, stateAtSend, h, h2]

/-- The log of `streamFile` when the gzip condition fails: three calls. -/
theorem streamFileLog_plain {P : Platform} (m : Methods P) (file : File) (contentType : String)
    (s : RepRapWebServer P) (h : ¬ gzipCondition file contentType) :
    streamFileLog m file contentType s =
      [⟨.setContentLength file.size, s⟩,
        ⟨.send 200 contentType "", stateAtSend m file contentType s⟩,
        ⟨.clientWrite file HTTP_DOWNLOAD_UNIT_SIZE,
          m.send 200 contentType "" (stateAtSend m file contentType s)⟩] := by
  have h2 := h
  unfold gzipCondition at h2
  simp only [streamFileLog, Run.streamFile, Run.start, Run.setContentLength, Run.sendHeader,
    Run.send, Run.clientWrite, Run.record, stateAtSend, if_neg h, if_neg h2]
  rfl

/-- The value `streamFile` returns is the count the client's `write` reports. -/
theorem streamFileResult_eq {P : Platform} (m : Methods P) (file : File) (contentType : String)
    (s : RepRapWebServer P) :
    streamFileResult m file contentType s =
      (m.clientWrite file HTTP_DOWNLOAD_UNIT_SIZE
        (m.send 200 contentType "" (stateAtSend m file contentType s))._currentClient).1 := by
  by_cases h : gzipCondition file contentType
  · have h2 := h
    unfold gzipCondition at h2
    simp only [streamFileResult, Run.streamFile, Run.start, Run.setContentLength,
      Run.sendHeader, Run.send, Run.clientWrite, Run.record, stateAtSend, if_pos h, if_pos h2]
  · have h2 := h
    unfold gzipCondition at h2
    simp only [streamFileResult, Run.streamFile, Run.start, Run.setContentLength,
      Run.sendHeader, Run.send, Run.clientWrite, Run.record, stateAtSend, if_neg h, if_neg h2]

/-- The calls of `streamFile`, in order. -/
theorem streamFileCalls_eq {P : Platform} (m : Methods P) (file : File) (contentType : String)
    (s : RepRapWebServer P) :
    streamFileCalls m file contentType s =
      [Call.setContentLength file.size] ++
        (if gzipCondition file contentType then
          [Call.sendHeader "Content-Encoding" "gzip" false] else []) ++
        [Call.send 200 contentType "", Call.clientWrite file HTTP_DOWNLOAD_UNIT_SIZE] := by
  have hlog : streamFileCalls m file contentType s =
      (streamFileLog m file contentType s).map Event.call := rfl
  by_cases h : gzipCondition file contentType
  · rw [hlog, streamFileLog_gzip m file contentType s h, if_pos h]; rfl
  · rw [hlog, streamFileLog_plain m file contentType s h, if_neg h]; rfl

/-- The gzip condition of the code, in words: the name is some string followed by
`.gz` and the content type is neither of the two compressed types. -/
theorem gzipCondition_iff (file : File) (contentType : String) :
    gzipCondition file contentType ↔
      ((∃ stem : String, file.name = stem ++ ".gz") ∧
        contentType ≠ "application/x-gzip" ∧
        contentType ≠ "application/octet-stream") := by
  unfold gzipCondition
  rw [endsWith_iff]

/-- C1: `streamFile` calls `sendHeader("Content-Encoding", "gzip")` if and only if
the file name ends in `.gz` and the content type is neither `application/x-gzip`
nor `application/octet-stream`; every `sendHeader` call it makes is that one, and
when the condition fails it makes none; `/web/app.js.gz` streamed as
`application/javascript` gets the header. -/
theorem streamFile_gzip_header {P : Platform} (m : Methods P) (file : File)
    (contentType : String) (s : RepRapWebServer P) :
    (Call.sendHeader "Content-Encoding" "gzip" false ∈ streamFileCalls m file contentType s ↔
        ((∃ stem : String, file.name = stem ++ ".gz") ∧
          contentType ≠ "application/x-gzip" ∧
          contentType ≠ "application/octet-stream")) ∧
      (∀ c ∈ streamFileCalls m file contentType s, c.isSendHeader = true →
        c = Call.sendHeader "Content-Encoding" "gzip" false) ∧
      (¬ ((∃ stem : String, file.name = stem ++ ".gz") ∧
          contentType ≠ "application/x-gzip" ∧
          contentType ≠ "application/octet-stream") →
        ∀ c ∈ streamFileCalls m file contentType s, c.isSendHeader = false) ∧
      Call.sendHeader "Content-Encoding" "gzip" false ∈
        streamFileCalls m { file with name := "/web/app.js.gz" } "application/javascript" s := by
  rw [← gzipCondition_iff]
  refine ⟨?_, ?_, ?_, ?_⟩
  · rw [streamFileCalls_eq]
    by_cases h : gzipCondition file contentType <;> simp [h]
  · rw [streamFileCalls_eq]
    by_cases h : gzipCondition file contentType <;> simp [h, Call.isSendHeader]
  · intro h
    rw [streamFileCalls_eq]
    simp [h, Call.isSendHeader]
  · rw [streamFileCalls_eq]
    have h : gzipCondition { file with name := "/web/app.js.gz" } "application/javascript" :=
      ⟨show endsWith "/web/app.js.gz" ".gz" = true by decide, by decide, by decide⟩
    simp [h]

/-- If `sendHeader` leaves the content length alone, the state `send` is called
on has the content length `streamFile` has just set. -/
theorem stateAtSend_contentLength {P : Platform} (m : Methods P)
    (hframe : ∀ (name value : String) (first : Bool) (t : RepRapWebServer P),
      (m.sendHeader name value first t)._contentLength = t._contentLength)
    (file : File) (contentType : String) (s : RepRapWebServer P) :
    (stateAtSend m file contentType s)._contentLength = file.size := by
  unfold stateAtSend
  split
  · rw [hframe]; rfl
  · rfl

/-- The modelled `sendHeader` never changes the content length. -/
theorem Spec.sendHeader_contentLength (name value : String) (first : Bool) (t : SpecServer) :
    (Spec.sendHeader name value first t)._contentLength = t._contentLength := by
  unfold Spec.sendHeader
  split
  · rfl
  · split <;> rfl

/-- C2: whatever the server state before, and whatever `send` and the client's
write do, `streamFile` first calls `setContentLength(file.size())`, so that its
next call finds the content length set to the size of the file; it makes exactly
one `send` call, with code 200, the caller's content type and empty content, on
the state left by `setContentLength` and, under the gzip condition, by the
`sendHeader` of the specification; the content length in force at that `send` is
the size of the file; and the `send` is carried out: the write that follows is
made on the state `send` returns. -/
theorem streamFile_send_contentLength
    (send : Int → String → String → SpecServer → SpecServer)
    (clientWrite : File → Nat → SpecClient → Nat × SpecClient)
    (file : File) (contentType : String) (s : SpecServer) :
    (streamFileLog (Spec.methodsWith send clientWrite) file contentType s).head? =
        some ⟨.setContentLength file.size, s⟩ ∧
      ((streamFileLog (Spec.methodsWith send clientWrite) file contentType s).drop 1).head?.map
          (fun e => e.before._contentLength) = some file.size ∧
      ∃ before : SpecServer,
        (streamFileLog (Spec.methodsWith send clientWrite) file contentType s).filter
            (fun e => e.call.isSend) = [⟨.send 200 contentType "", before⟩] ∧
          before =
            (if gzipCondition file contentType then
              Spec.sendHeader "Content-Encoding" "gzip" false (s.setContentLength file.size)
            else s.setContentLength file.size) ∧
          before._contentLength = file.size ∧
          (streamFileLog (Spec.methodsWith send clientWrite) file contentType s).getLast? =
            some ⟨.clientWrite file HTTP_DOWNLOAD_UNIT_SIZE, send 200 contentType "" before⟩ := by
  have hlen := stateAtSend_contentLength (Spec.methodsWith send clientWrite)
    Spec.sendHeader_contentLength file contentType s
  by_cases h : gzipCondition file contentType
  · rw [streamFileLog_gzip _ file contentType s h]
    refine ⟨rfl, rfl, _, rfl, ?_, hlen, rfl⟩
    simp only [stateAtSend, if_pos h]; rfl
  · rw [streamFileLog_plain _ file contentType s h]
    refine ⟨rfl, ?_, _, rfl, ?_, hlen, rfl⟩
    · simpa using hlen
    · simp only [stateAtSend, if_neg h]

/-- C3: the calls of `streamFile` are, in this order, `setContentLength`, at most
one `sendHeader`, one `send` and one write of the file to the client; so no
`sendHeader` comes after the `send`, and the file is written after it. -/
theorem streamFile_call_order {P : Platform} (m : Methods P) (file : File)
    (contentType : String) (s : RepRapWebServer P) :
    ∃ headers : List Call,
      headers.length ≤ 1 ∧
        (∀ c ∈ headers, c.isSendHeader = true) ∧
        streamFileCalls m file contentType s =
          [Call.setContentLength file.size] ++ headers ++
            [Call.send 200 contentType "", Call.clientWrite file HTTP_DOWNLOAD_UNIT_SIZE] ∧
        (streamFileCalls m file contentType s).dropWhile (fun c => !c.isSend) =
          [Call.send 200 contentType "", Call.clientWrite file HTTP_DOWNLOAD_UNIT_SIZE] := by
  by_cases h : gzipCondition file contentType
  · refine ⟨[Call.sendHeader "Content-Encoding" "gzip" false], by simp, ?_, ?_, ?_⟩
    · simp [Call.isSendHeader]
    · rw [streamFileCalls_eq, if_pos h]
    · rw [streamFileCalls_eq, if_pos h]; rfl
  · refine ⟨[], by simp, by simp, ?_, ?_⟩
    · rw [streamFileCalls_eq, if_neg h]
    · rw [streamFileCalls_eq, if_neg h]; rfl

/-- The server state `streamFile` leaves behind: the one `send` returns, with the
client replaced by the one the write returns. -/
theorem streamFileServer_eq {P : Platform} (m : Methods P) (file : File) (contentType : String)
    (s : RepRapWebServer P) :
    streamFileServer m file contentType s =
      { m.send 200 contentType "" (stateAtSend m file contentType s) with
        _currentClient :=
          (m.clientWrite file HTTP_DOWNLOAD_UNIT_SIZE
            (m.send 200 contentType "" (stateAtSend m file contentType s))._currentClient).2 } := by
  by_cases h : gzipCondition file contentType
  · have h2 := h
    unfold gzipCondition at h2
    simp only [streamFileServer, Run.streamFile, Run.start, Run.setContentLength,
      Run.sendHeader, Run.send, Run.clientWrite, Run.record, stateAtSend, if_pos h, if_pos h2]
  · have h2 := h
    unfold gzipCondition at h2
    simp only [streamFileServer, Run.streamFile, Run.start, Run.setContentLength,
      Run.sendHeader, Run.send, Run.clientWrite, Run.record, stateAtSend, if_neg h, if_neg h2]

/-- C4: `streamFile` makes one write of the file to the client, its last call, with
unit size `HTTP_DOWNLOAD_UNIT_SIZE = 1460`, on the client as the `send` left it;
it returns the byte count this write reports, whatever `send` wrote before, and
the write takes effect: the server is left with the client the write returns and
is otherwise as `send` left it. -/
theorem streamFile_returns_write_count {P : Platform} (m : Methods P) (file : File)
    (contentType : String) (s : RepRapWebServer P) :
    HTTP_DOWNLOAD_UNIT_SIZE = 1460 ∧
      ∃ atSend before : RepRapWebServer P,
        (streamFileLog m file contentType s).filter (fun e => e.call.isSend) =
            [⟨.send 200 contentType "", atSend⟩] ∧
          atSend =
            (if gzipCondition file contentType then
              m.sendHeader "Content-Encoding" "gzip" false (s.setContentLength file.size)
            else s.setContentLength file.size) ∧
          before = m.send 200 contentType "" atSend ∧
          (streamFileLog m file contentType s).filter (fun e => e.call.isClientWrite) =
            [⟨.clientWrite file 1460, before⟩] ∧
          (streamFileLog m file contentType s).getLast? =
            some ⟨.clientWrite file 1460, before⟩ ∧
          streamFileResult m file contentType s =
            (m.clientWrite file 1460 before._currentClient).1 ∧
          streamFileServer m file contentType s =
            { before with
              _currentClient := (m.clientWrite file 1460 before._currentClient).2 } := by
  refine ⟨rfl, stateAtSend m file contentType s,
    m.send 200 contentType "" (stateAtSend m file contentType s), ?_, rfl, rfl, ?_, ?_, ?_, ?_⟩
  · by_cases h : gzipCondition file contentType
    · rw [streamFileLog_gzip m file contentType s h]; rfl
    · rw [streamFileLog_plain m file contentType s h]; rfl
  · by_cases h : gzipCondition file contentType
    · rw [streamFileLog_gzip m file contentType s h]; rfl
    · rw [streamFileLog_plain m file contentType s h]; rfl
  · by_cases h : gzipCondition file contentType
    · rw [streamFileLog_gzip m file contentType s h]; rfl
    · rw [streamFileLog_plain m file contentType s h]; rfl
  · exact streamFileResult_eq m file contentType s
  · exact streamFileServer_eq m file contentType s

/-- Under the modelled response writer the bytes of the file reach the client:
after `streamFile` the body bytes on the connection are those that were there
followed by the bytes of the file, and the value returned is their number. -/
theorem streamFile_body_written (fmt : HeadFormat) (file : File) (contentType : String)
    (s : SpecServer) :
    (streamFileServer (Spec.methods fmt) file contentType s)._currentClient.bodyBytes =
        s._currentClient.bodyBytes ++ file.data ∧
      streamFileResult (Spec.methods fmt) file contentType s = file.data.length := by
  have hhead : ∀ (name value : String) (first : Bool) (t : SpecServer),
      (Spec.sendHeader name value first t)._currentClient = t._currentClient := by
    intro name value first t
    unfold Spec.sendHeader
    split
    · rfl
    · split <;> rfl
  have hat : (stateAtSend (Spec.methods fmt) file contentType s)._currentClient.bodyBytes =
      s._currentClient.bodyBytes := by
    unfold stateAtSend
    split
    · show (Spec.sendHeader _ _ _ _)._currentClient.bodyBytes = _
      rw [hhead]; rfl
    · rfl
  have hsend : ∀ t : SpecServer,
      (Spec.send fmt 200 contentType "" t)._currentClient.bodyBytes =
        t._currentClient.bodyBytes := by
    intro t
    unfold Spec.send Spec.writeBody Spec.flushHead
    split <;> simp [bytesOf]
  constructor
  · rw [streamFileServer_eq]
    show (Spec.clientWrite file HTTP_DOWNLOAD_UNIT_SIZE
      (Spec.send fmt 200 contentType "" _)._currentClient).2.bodyBytes = _
    simp only [Spec.clientWrite]
    rw [hsend, hat]
  · rw [streamFileResult_eq]; rfl

/-- The static-route scenario under the modelled response writer: streaming
`/web/app.js.gz` returns the three bytes of the file, while the head that went
out first carries `Content-Encoding: gzip` and the length of the file; the four
calls find the content lengths 77, 3, 3 and 3, and the body on the connection is
the file. -/
theorem streamFile_appJsGz :
    streamFileResult (Spec.methods plainFormat) appJsGz "application/javascript"
        (freshServer 77) = 3 ∧
      Spec.transmittedHeaders
          (Run.streamFile (Spec.methods plainFormat) appJsGz "application/javascript"
            (Run.start (freshServer 77))).2.server =
        "HTTP/1.1 200\r\nContent-Type: application/javascript\r\n" ++
          "Content-Encoding: gzip\r\nContent-Length: 3\r\n\r\n" ∧
      (streamFileLog (Spec.methods plainFormat) appJsGz "application/javascript"
          (freshServer 77)).map (fun e => e.before._contentLength) = [77, 3, 3, 3] ∧
      (streamFileServer (Spec.methods plainFormat) appJsGz "application/javascript"
          (freshServer 77))._currentClient.bodyBytes = [31, 139, 8] := by
  decide

/-! ### The response writer -/

namespace Spec

/-- Once the head is flushed, `sendHeader` changes nothing. -/
theorem sendHeader_of_flushed (name value : String) (first : Bool) (s : SpecServer)
    (h : s._currentClient.headersFlushed = true) : sendHeader name value first s = s := by
  simp [sendHeader, h]

/-- After `flushHead` the head is flushed. -/
theorem flushHead_flushed (fmt : HeadFormat) (status : String) (n : Nat) (s : SpecServer) :
    (flushHead fmt status n s)._currentClient.headersFlushed = true := by
  unfold flushHead
  by_cases h : s._currentClient.headersFlushed = true
  · simp [h]
  · simp [h]

/-- A `send` or `sendContent` leaves the head flushed. -/
theorem step_writes_flushed (fmt : HeadFormat) (s : SpecServer) (c : ResponseCall)
    (h : c.writes = true) : (step fmt s c)._currentClient.headersFlushed = true := by
  cases c with
  | sendHeader name value first => simp [ResponseCall.writes] at h
  | send code content_type content =>
    simp only [step, send, writeBody]
    exact flushHead_flushed _ _ _ _
  | sendContent content last =>
    simp only [step, sendContent, writeBody]
    exact flushHead_flushed _ _ _ _

/-- No call takes the flushed flag back. -/
theorem step_keeps_flushed (fmt : HeadFormat) (s : SpecServer) (c : ResponseCall)
    (h : s._currentClient.headersFlushed = true) :
    (step fmt s c)._currentClient.headersFlushed = true := by
  cases c with
  | sendHeader name value first =>
    simp only [step]
    rw [sendHeader_of_flushed _ _ _ _ h]; exact h
  | send code content_type content => exact step_writes_flushed fmt s _ rfl
  | sendContent content last => exact step_writes_flushed fmt s _ rfl

/-- A run keeps the flushed flag. -/
theorem run_keeps_flushed (fmt : HeadFormat) (calls : List ResponseCall) :
    ∀ s : SpecServer, s._currentClient.headersFlushed = true →
      (run fmt s calls)._currentClient.headersFlushed = true := by
  induction calls with
  | nil => intro s h; exact h
  | cons c rest ih =>
    intro s h
    exact ih (step fmt s c) (step_keeps_flushed fmt s c h)

/-- A run with a `send` or `sendContent` in it leaves the head flushed. -/
theorem run_writes_flushed (fmt : HeadFormat) (calls : List ResponseCall) :
    ∀ s : SpecServer, (∃ c ∈ calls, c.writes = true) →
      (run fmt s calls)._currentClient.headersFlushed = true := by
  induction calls with
  | nil => intro s h; simp at h
  | cons c rest ih =>
    intro s h
    by_cases hc : c.writes = true
    · exact run_keeps_flushed fmt rest _ (step_writes_flushed fmt s c hc)
    · obtain ⟨d, hd, hw⟩ := h
      rcases List.mem_cons.mp hd with rfl | hmem
      · exact absurd hw hc
      · exact ih (step fmt s c) ⟨d, hmem, hw⟩

/-- A run of two sequences is the run of the second on the result of the first. -/
theorem run_append (fmt : HeadFormat) (s : SpecServer) (xs ys : List ResponseCall) :
    run fmt s (xs ++ ys) = run fmt (run fmt s xs) ys := by
  simp [run, List.foldl_append]

/-- A `sendHeader` made after a `send` or `sendContent` leaves the whole server
state as it would be without it. -/
theorem run_late_sendHeader (fmt : HeadFormat) (s : SpecServer)
    (before after : List ResponseCall) (name value : String) (first : Bool)
    (hsent : ∃ c ∈ before, c.writes = true) :
    run fmt s (before ++ ResponseCall.sendHeader name value first :: after) =
      run fmt s (before ++ after) := by
  rw [run_append, run_append]
  have hf := run_writes_flushed fmt before s hsent
  show run fmt (sendHeader name value first (run fmt s before)) after = _
  rw [sendHeader_of_flushed _ _ _ _ hf]

end Spec

/-- C5: in the modelled response writer, a `sendHeader` call made after a `send`
or `sendContent` call has no effect on the transmitted headers: the header bytes
written to the client are those written without that call. -/
theorem late_sendHeader_no_effect (fmt : HeadFormat) (s : SpecServer)
    (before after : List Spec.ResponseCall) (name value : String) (first : Bool)
    (hsent : ∃ c ∈ before, c.writes = true) :
    Spec.transmittedHeaders
        (Spec.run fmt s (before ++ Spec.ResponseCall.sendHeader name value first :: after)) =
      Spec.transmittedHeaders (Spec.run fmt s (before ++ after)) := by
  rw [Spec.run_late_sendHeader fmt s before after name value first hsent]

/-- Witness of C5: a header sent between a `send` and a `sendContent`. -/
theorem late_sendHeader_no_effect_witness :
    (∃ c ∈ [Spec.ResponseCall.send 200 "text/plain" "hello"], c.writes = true) ∧
      Spec.transmittedHeaders
          (Spec.run plainFormat (freshServer (CONTENT_LENGTH_NOT_SET 32))
            ([Spec.ResponseCall.send 200 "text/plain" "hello"] ++
              Spec.ResponseCall.sendHeader "X-Late" "1" false ::
                [Spec.ResponseCall.sendContent " world" true])) =
        Spec.transmittedHeaders
          (Spec.run plainFormat (freshServer (CONTENT_LENGTH_NOT_SET 32))
            ([Spec.ResponseCall.send 200 "text/plain" "hello"] ++
              [Spec.ResponseCall.sendContent " world" true])) :=
  have hsent : ∃ c ∈ [Spec.ResponseCall.send 200 "text/plain" "hello"], c.writes = true :=
    ⟨_, List.mem_singleton.mpr rfl, rfl⟩
  ⟨hsent, late_sendHeader_no_effect plainFormat _ _ _ "X-Late" "1" false hsent⟩

/-- The model is not blind to headers: one sent before the `send` is transmitted,
the one sent after it is not. -/
theorem early_sendHeader_transmitted :
    Spec.transmittedHeaders
        (Spec.run plainFormat (freshServer (CONTENT_LENGTH_NOT_SET 32))
          [Spec.ResponseCall.sendHeader "X-Early" "1" false,
            Spec.ResponseCall.send 200 "text/plain" "hello",
            Spec.ResponseCall.sendHeader "X-Late" "1" false,
            Spec.ResponseCall.sendContent " world" true]) =
      "HTTP/1.1 200\r\nContent-Type: text/plain\r\nX-Early: 1\r\nContent-Length: 5\r\n\r\n" := by
  decide

/-! ### URL decoding -/

/-- A hexadecimal digit has the value it was made from. -/
theorem hexValue_hexDigit (n : Nat) (h : n < 16) : hexValue (hexDigit n) = some n := by
  interval_cases n <;> decide

/-- The plus sign is no hexadecimal digit. -/
theorem hexValue_plus : hexValue '+' = none := by decide

/-- An unreserved character is not the percent sign. -/
theorem unreserved_ne_percent (c : Char) (h : unreserved c = true) : c ≠ '%' := by
  rintro rfl; revert h; decide

/-- An unreserved character decodes to itself. -/
theorem unreserved_plusToSpace (c : Char) (h : unreserved c = true) : plusToSpace c = c := by
  have : c ≠ '+' := by rintro rfl; revert h; decide
  simp [plusToSpace, this]

/-- Decoding a character other than the percent sign. -/
theorem urlDecodeFrom_plain (c : Char) (t : List Char) (h : c ≠ '%') :
    urlDecodeFrom 0 (c :: t) = plusToSpace c :: urlDecodeFrom 0 t := by
  simp [urlDecodeFrom, h]

/-- Decoding a percent sign that starts no escape. -/
theorem urlDecodeFrom_percent_none (t : List Char) (h : escapeValue t = none) :
    urlDecodeFrom 0 ('%' :: t) = '%' :: urlDecodeFrom 0 t := by
  simp [urlDecodeFrom, h]

/-- Decoding a percent sign that starts an escape. -/
theorem urlDecodeFrom_percent_some (t : List Char) (v : Char) (h : escapeValue t = some v) :
    urlDecodeFrom 0 ('%' :: t) = v :: urlDecodeFrom 2 t := by
  simp [urlDecodeFrom, h]

/-- Skipping the two digits of an escape. -/
theorem urlDecodeFrom_two (h l : Char) (rest : List Char) :
    urlDecodeFrom 2 (h :: l :: rest) = urlDecodeFrom 0 rest := by
  simp [urlDecodeFrom]

/-- Decoding a percent-escape. -/
theorem urlDecodeFrom_escape (h l : Char) (a b : Nat) (rest : List Char)
    (ha : hexValue h = some a) (hb : hexValue l = some b) :
    urlDecodeFrom 0 ('%' :: h :: l :: rest) =
      Char.ofNat (16 * a + b) :: urlDecodeFrom 0 rest := by
  have he : escapeValue (h :: l :: rest) = some (Char.ofNat (16 * a + b)) := by
    simp [escapeValue, ha, hb]
  rw [urlDecodeFrom_percent_some _ _ he, urlDecodeFrom_two]

/-- The two digits of a one-byte character give the character back. -/
theorem char_of_digits (c : Char) (h : c.toNat < 256) :
    Char.ofNat (16 * (c.toNat / 16 % 16) + c.toNat % 16) = c := by
  have : 16 * (c.toNat / 16 % 16) + c.toNat % 16 = c.toNat := by omega
  rw [this, Char.ofNat_toNat]

/-- Decoding undoes encoding, on lists of characters. -/
theorem urlDecodeFrom_encode (s : List Char) (hs : ∀ c ∈ s, reversible c) :
    urlDecodeFrom 0 (s.flatMap percentEncodeChar) = s := by
  induction s with
  | nil => rfl
  | cons c t ih =>
    have hc : c.toNat < 256 := hs c (List.mem_cons_self _ _)
    have ht := ih (fun d hd => hs d (List.mem_cons_of_mem _ hd))
    rw [List.flatMap_cons]
    by_cases hu : unreserved c = true
    · simp only [percentEncodeChar, hu, if_true, List.singleton_append]
      rw [urlDecodeFrom_plain _ _ (unreserved_ne_percent c hu), unreserved_plusToSpace c hu, ht]
    · simp only [percentEncodeChar, hu, Bool.false_eq_true, if_false, List.cons_append,
        List.nil_append]
      rw [urlDecodeFrom_escape _ _ _ _ _ (hexValue_hexDigit _ (Nat.mod_lt _ (by norm_num)))
        (hexValue_hexDigit _ (Nat.mod_lt _ (by norm_num))), char_of_digits c hc, ht]

/-- A plus sign put after a list does not change whether the list starts with
two hexadecimal digits. -/
theorem escapeValue_append_plus (t b : List Char) :
    escapeValue (t ++ '+' :: b) = escapeValue t := by
  match t with
  | [] => cases b <;> simp [escapeValue, hexValue_plus]
  | [h] => cases hh : hexValue h <;> simp [escapeValue, hexValue_plus, hh]
  | h :: l :: rest => simp [escapeValue]

/-- A list that starts an escape has two characters at least. -/
theorem escapeValue_some_shape (t : List Char) (v : Char) (h : escapeValue t = some v) :
    ∃ x y rest, t = x :: y :: rest := by
  match t with
  | [] => simp [escapeValue] at h
  | [_] => simp [escapeValue] at h
  | x :: y :: rest => exact ⟨x, y, rest, rfl⟩

/-- A plus sign decodes to a space wherever it stands, on lists of characters. -/
theorem urlDecodeFrom_append_plus (n : Nat) :
    ∀ a b : List Char, a.length ≤ n →
      urlDecodeFrom 0 (a ++ '+' :: b) = urlDecodeFrom 0 a ++ ' ' :: urlDecodeFrom 0 b := by
  induction n using Nat.strong_induction_on with
  | _ n ih =>
    intro a b hn
    match a with
    | [] => simp [urlDecodeFrom, plusToSpace]
    | c :: t =>
      have hlen : t.length < n := by simpa using hn
      by_cases hc : c = '%'
      · subst hc
        cases he : escapeValue t with
        | none =>
          have he2 := escapeValue_append_plus t b
          rw [he] at he2
          rw [List.cons_append, urlDecodeFrom_percent_none _ he2,
            urlDecodeFrom_percent_none _ he, ih t.length hlen t b le_rfl]
          rfl
        | some v =>
          obtain ⟨x, y, rest, rfl⟩ := escapeValue_some_shape t v he
          have he2 := escapeValue_append_plus (x :: y :: rest) b
          rw [he] at he2
          have hr : rest.length < n := by simp at hlen; omega
          rw [List.cons_append, urlDecodeFrom_percent_some _ v he2,
            urlDecodeFrom_percent_some _ v he, List.cons_append, List.cons_append,
            urlDecodeFrom_two, urlDecodeFrom_two, ih rest.length hr rest b le_rfl]
          rfl
      · rw [List.cons_append, urlDecodeFrom_plain _ _ hc, urlDecodeFrom_plain _ _ hc,
          ih t.length hlen t b le_rfl]
        rfl

/-- C6: in the modelled decoder, `urlDecode` applied to the percent-encoding of a
string of one-byte characters returns the string, and a `+` anywhere in the input
decodes to a space: the text before it and the text after it decode as they do
on their own. -/
theorem urlDecode_percentEncode (s a b : String) (hs : ∀ c ∈ s.data, reversible c) :
    urlDecode (percentEncode s) = s ∧
      urlDecode (a ++ "+" ++ b) = urlDecode a ++ " " ++ urlDecode b := by
  constructor
  · apply String.ext
    exact urlDecodeFrom_encode s.data hs
  · apply String.ext
    have h := urlDecodeFrom_append_plus a.data.length a.data b.data le_rfl
    simpa [urlDecode, String.data_append] using h

/-- Witness of C6: a string with a space, a plus sign, a slash, a percent sign and
a character above 127. -/
theorem urlDecode_percentEncode_witness :
    (∀ c ∈ "a b+c/%é".data, reversible c) ∧
      urlDecode (percentEncode "a b+c/%é") = "a b+c/%é" ∧
      urlDecode ("x=1" ++ "+" ++ "2%2B3") = urlDecode "x=1" ++ " " ++ urlDecode "2%2B3" :=
  have hs : ∀ c ∈ "a b+c/%é".data, reversible c := by decide
  ⟨hs, urlDecode_percentEncode "a b+c/%é" "x=1" "2%2B3" hs⟩

end DuetWiFiServer
